import Mathlib

/-!
Shallow embedding of the iteration-variable and range core of the TVM
expression header (`include/tvm/expr.h`): `Var`, `Range`, `IterVarType`,
`IterVar`/`IterVarNode`, the factory functions `thread_axis` / `reduce_axis` /
`IterVarNode::make`, the reduction builders `sum` / `max` / `min`, and the
role printer `IterVarType2String`.

The header declares several functions whose bodies live outside the shown
sources (`Range::Range(begin, end)`, `Range::make_with_min_extent`,
`thread_axis`, `reduce_axis`, `IterVarNode::make`, `sum`, `max`, `min`).
Those are modelled from the specification; each such definition carries a
doc comment starting with `Modelled from the spec:`. Everything else
(the `IterVarType` enumeration, `IterVarType2String`, the `IterVarNode`
field layout, `Var::copy_with_suffix`, `IterVar::operator Expr`) is
translated directly from the header.

Node identity (the reference semantics of `shared_ptr`-backed nodes) is
modelled by giving every `Var` a numeric `id` drawn from an allocation
counter that is threaded explicitly through the allocating operations.
-/

namespace tvm

/-- Element type of an expression: type code, bit width, lane count
(the `Halide::Type` triple used by `Var`). Codes follow
`halide_type_code_t`: 0 = int, 1 = uint, 2 = float, 3 = handle. -/
structure HType where
  code : Nat
  bits : Nat
  lanes : Nat
deriving DecidableEq, Repr

/-- The default `Var` element type, `Int(32)`: signed 32-bit scalar. -/
def Int32 : HType := ⟨0, 32, 1⟩

/-- A named variable node: numeric node identity, display name, element
type. `id` models reference identity of the underlying heap node; two
`Var`s are the same node exactly when their `id`s coincide. -/
structure Var where
  id : Nat
  name_hint : String
  type : HType
deriving DecidableEq, Repr

/-- Allocate a fresh `Var` node from allocation state `s`
(the `Var(name_hint, type)` constructor; the defaults are the header's
`name_hint = "v"`, `t = Int(32)`). Returns the node and the next state. -/
def Var.fresh (s : Nat) (name_hint : String := "v") (t : HType := Int32) :
    Var × Nat :=
  (⟨s, name_hint, t⟩, s + 1)

/-- Make a new copy of the var with the same type, appending `suffix` to the
name (`Var::copy_with_suffix`): builds `Var(name_hint + suffix, type)`, a
fresh node allocated from state `s`. -/
def Var.copy_with_suffix (a : Var) (suffix : String) (s : Nat) : Var × Nat :=
  Var.fresh s (a.name_hint ++ suffix) a.type

/-- Expression trees: integer constants, variables, and the arithmetic
the range constructors need. Mirrors the Halide `Expr` nodes reachable
from this header. -/
inductive Expr where
  | IntImm : Int → Expr
  | var : Var → Expr
  | Add : Expr → Expr → Expr
  | Sub : Expr → Expr → Expr
deriving DecidableEq, Repr

/-- Modelled from the spec: `as_const_int`, the best-effort constant
extractor the spec's "statically known" / "compile-time constants"
checks rely on. Returns the value of a constant leaf, `none` on any
dynamic or symbolic expression. -/
def Expr.as_const_int : Expr → Option Int
  | .IntImm v => some v
  | _ => none

/-- Modelled from the spec: expression addition. Two compile-time
constants fold to a constant (the spec's static checks and constant
examples require arithmetic on known constants to fold); any other
operands build a symbolic `Add` node. -/
def Expr.add : Expr → Expr → Expr
  | .IntImm a, .IntImm b => .IntImm (a + b)
  | a, b => .Add a b

/-- Modelled from the spec: expression subtraction, folding two
compile-time constants and building a symbolic `Sub` node otherwise. -/
def Expr.sub : Expr → Expr → Expr
  | .IntImm a, .IntImm b => .IntImm (a - b)
  | a, b => .Sub a b

/-- Error kinds of the core (spec section 7). `IllegalTransformError` is
raised by external scheduling collaborators, not by this core. -/
inductive TVMError where
  | InvalidRangeError
  | InvalidAxisRoleError
deriving DecidableEq, Repr

/-- A half-open interval `[min, min + extent)` with expression-valued
bounds (`tvm::Range` over `Halide::IR::RangeNode`). Equality is
structural over `(min, extent)`. -/
structure Range where
  min : Expr
  extent : Expr
deriving DecidableEq, Repr

/-- Modelled from the spec: `Range::make_with_min_extent(min, extent)`,
the structurally primary constructor — stores the two fields
(implementation not in the shown sources). -/
def Range.make_with_min_extent (min extent : Expr) : Range :=
  ⟨min, extent⟩

/-- Modelled from the spec: the `Range(begin, end)` constructor
(implementation not in the shown sources). Fails with
`InvalidRangeError` when both bounds are compile-time constants and
`end` is statically known to be less than `begin`; dynamic or symbolic
bounds are accepted without validation. On success it delegates to
`make_with_min_extent` with `extent = end - min`. -/
def Range.ofBeginEnd (b e : Expr) : Except TVMError Range :=
  match b.as_const_int, e.as_const_int with
  | some bv, some ev =>
      if ev < bv then .error .InvalidRangeError
      else .ok (Range.make_with_min_extent b (Expr.sub e b))
  | _, _ => .ok (Range.make_with_min_extent b (Expr.sub e b))

/-- Type of iteration variable (`IterVarType`), the closed taxonomy of
axis roles. -/
inductive IterVarType where
  | kDataPar
  | kThreadIndex
  | kCommReduce
  | kOrdered
  | kOpaque
  | kUnrolled
  | kVectorized
  | kParallelized
deriving DecidableEq, Repr

/-- The enumeration codes of `IterVarType` (`kDataPar = 0` …
`kParallelized = 7`). -/
def IterVarType.code : IterVarType → Int
  | .kDataPar => 0
  | .kThreadIndex => 1
  | .kCommReduce => 2
  | .kOrdered => 3
  | .kOpaque => 4
  | .kUnrolled => 5
  | .kVectorized => 6
  | .kParallelized => 7

/-- Role-to-display-name mapping (`IterVarType2String`), translated
switch case by switch case from the header. -/
def IterVarType2String : IterVarType → String
  | .kDataPar => "DataPar"
  | .kThreadIndex => "ThreadIndex"
  | .kCommReduce => "CommRedude"
  | .kOrdered => "Ordered"
  | .kOpaque => "Opaque"
  | .kUnrolled => "Unrolled"
  | .kVectorized => "Vectorized"
  | .kParallelized => "Parallelized"

/-- The container node of an iteration variable (`IterVarNode`): domain,
looping variable, role, and optional thread tag. -/
structure IterVarNode where
  dom : Range
  var : Var
  iter_type : IterVarType
  thread_tag : String
deriving DecidableEq, Repr

/-- An `IterVar` is a reference to an `IterVarNode`; the model collapses
the reference wrapper, so `operator->` is the identity. -/
abbrev IterVar := IterVarNode

/-- Modelled from the spec: `IterVarNode::make(dom, var, iter_type,
thread_tag = "")`, the general factory taking all four fields explicitly
(implementation not in the shown sources). -/
def IterVarNode.make (dom : Range) (var : Var) (iter_type : IterVarType)
    (thread_tag : String := "") : IterVar :=
  ⟨dom, var, iter_type, thread_tag⟩

/-- The implicit conversion `IterVar::operator Expr`: returns the node's
own bound variable, `(*this)->var`, as an expression. -/
def IterVar.toExpr (v : IterVar) : Expr :=
  Expr.var v.var

/-- Modelled from the spec: `thread_axis(dom, tag)`, the factory for
hardware-thread axes (implementation not in the shown sources) — a fresh
variable named after the tag, role `kThreadIndex`, thread tag `tag`. -/
def thread_axis (s : Nat) (dom : Range) (tag : String) : IterVar × Nat :=
  let (v, s') := Var.fresh s tag
  (IterVarNode.make dom v .kThreadIndex tag, s')

/-- Modelled from the spec: `reduce_axis(dom, name = "rv")`, the factory
for reduction axes (implementation not in the shown sources) — a fresh
variable named `name`, role `kCommReduce`, empty thread tag. -/
def reduce_axis (s : Nat) (dom : Range) (name : String := "rv") :
    IterVar × Nat :=
  let (v, s') := Var.fresh s name
  (IterVarNode.make dom v .kCommReduce, s')

/-- The combiner tag of a reduction expression. -/
inductive ReduceOp where
  | Add
  | Max
  | Min
deriving DecidableEq, Repr

/-- A reduction expression node: combiner tag, source expression, and the
ordered reduction axes (`Reduce` as built by `sum` / `max` / `min`). -/
structure Reduce where
  op : ReduceOp
  source : Expr
  axis : List IterVar
deriving DecidableEq, Repr

/-- Modelled from the spec: the common builder behind `sum` / `max` /
`min` (implementations not in the shown sources). Fails with
`InvalidAxisRoleError` when any supplied axis is not of `kCommReduce`
role — a hard precondition — and otherwise produces the reduction
expression over the supplied axes. -/
def mkReduce (op : ReduceOp) (source : Expr) (axis : List IterVar) :
    Except TVMError Reduce :=
  if ∀ a ∈ axis, a.iter_type = IterVarType.kCommReduce then
    .ok ⟨op, source, axis⟩
  else
    .error .InvalidAxisRoleError

/-- Modelled from the spec: `sum(source, axis)`, the additive reduction
builder. -/
def sum (source : Expr) (axis : List IterVar) : Except TVMError Reduce :=
  mkReduce .Add source axis

/-- Modelled from the spec: `max(source, axis)`, the maximum reduction
builder. -/
def max (source : Expr) (axis : List IterVar) : Except TVMError Reduce :=
  mkReduce .Max source axis

/-- Modelled from the spec: `min(source, axis)`, the minimum reduction
builder. -/
def min (source : Expr) (axis : List IterVar) : Except TVMError Reduce :=
  mkReduce .Min source axis

/-- Evaluate an expression under an environment assigning an integer to
every variable node id (identity-keyed, matching `Var`'s reference
semantics). -/
def Expr.eval (env : Nat → Int) : Expr → Int
  | .IntImm v => v
  | .var v => env v.id
  | .Add a b => a.eval env + b.eval env
  | .Sub a b => a.eval env - b.eval env

/-- Modelled from the spec: the element type of an expression, used to
pick the combiner's identity element (`make_zero(source.type())` and the
type min/max values; full Halide typing is not in the shown sources).
Constants are `Int(32)`; arithmetic takes the left operand's type. -/
def Expr.etype : Expr → HType
  | .IntImm _ => Int32
  | .var v => v.type
  | .Add a _ => a.etype
  | .Sub a _ => a.etype

/-- The smallest value of a signed integer type of the given bit width. -/
def typeMinVal (t : HType) : Int :=
  -(2 ^ (t.bits - 1))

/-- The largest value of a signed integer type of the given bit width. -/
def typeMaxVal (t : HType) : Int :=
  2 ^ (t.bits - 1) - 1

/-- The binary combiner denoted by a reduction tag. -/
def ReduceOp.fn : ReduceOp → Int → Int → Int
  | .Add => fun a b => a + b
  | .Max => fun a b => Max.max a b
  | .Min => fun a b => Min.min a b

/-- Modelled from the spec: the combiner-specific identity element —
0 for sum, the type minimum for max, the type maximum for min, matching
the source's element type. -/
def ReduceOp.identityFor (t : HType) : ReduceOp → Int
  | .Add => 0
  | .Max => typeMinVal t
  | .Min => typeMaxVal t

/-- Point update of an identity-keyed environment. -/
def updateEnv (env : Nat → Int) (x : Nat) (v : Int) : Nat → Int :=
  fun y => if y = x then v else env y

/-- Iterated combination `g (n-1) ⊕ (… ⊕ (g 0 ⊕ e))` of `n` loop-body
values with combiner `op` and initial element `e`. -/
def bigop (op : Int → Int → Int) (e : Int) : Nat → (Nat → Int) → Int
  | 0, _ => e
  | n + 1, g => op (g n) (bigop op e n g)

/-- Modelled from the spec: the mathematical value of a reduction — the
combination of the source evaluated over the full cross-product of the
supplied axes' domains, nested in axis order. Each axis's bounds are
evaluated in the reduction's own (outer) environment `env0`; each
iteration binds the axis's variable to `min + i`. -/
def redvalAux (op : Int → Int → Int) (e : Int) (source : Expr)
    (env0 : Nat → Int) : List IterVar → (Nat → Int) → Int
  | [], env => source.eval env
  | a :: rest, env =>
      bigop op e (a.dom.extent.eval env0).toNat fun i =>
        redvalAux op e source env0 rest
          (updateEnv env a.var.id (a.dom.min.eval env0 + i))

/-- Modelled from the spec: the value of a reduction expression under an
environment, using the tag's combiner and its identity element for the
source's type. -/
def reduceValue (env : Nat → Int) (r : Reduce) : Int :=
  redvalAux r.op.fn (r.op.identityFor r.source.etype) r.source env r.axis env

theorem bigop_congr (op : Int → Int → Int) (e : Int) (n : Nat)
    (g h : Nat → Int) (H : ∀ i, g i = h i) :
    bigop op e n g = bigop op e n h := by
  induction n with
  | zero => rfl
  | succ n ih =>
      simp only [bigop]
      rw [H n, ih]

theorem bigop_const (op : Int → Int → Int) (e : Int) (hid : op e e = e)
    (n : Nat) : bigop op e n (fun _ => e) = e := by
  induction n with
  | zero => rfl
  | succ n ih =>
      simp only [bigop]
      rw [ih, hid]

theorem op_shuffle (op : Int → Int → Int)
    (hassoc : ∀ a b c, op (op a b) c = op a (op b c))
    (hcomm : ∀ a b, op a b = op b a) (a b c d : Int) :
    op (op a b) (op c d) = op (op a c) (op b d) := by
  rw [hassoc, hassoc]
  congr 1
  rw [← hassoc, ← hassoc, hcomm b c]

theorem bigop_op (op : Int → Int → Int) (e : Int)
    (hassoc : ∀ a b c, op (op a b) c = op a (op b c))
    (hcomm : ∀ a b, op a b = op b a) (hid : op e e = e)
    (n : Nat) (g h : Nat → Int) :
    op (bigop op e n g) (bigop op e n h) =
      bigop op e n (fun i => op (g i) (h i)) := by
  induction n with
  | zero => exact hid
  | succ n ih =>
      simp only [bigop]
      rw [op_shuffle op hassoc hcomm, ih]

theorem bigop_comm (op : Int → Int → Int) (e : Int)
    (hassoc : ∀ a b c, op (op a b) c = op a (op b c))
    (hcomm : ∀ a b, op a b = op b a) (hid : op e e = e)
    (n m : Nat) (f : Nat → Nat → Int) :
    bigop op e n (fun i => bigop op e m (fun j => f i j)) =
      bigop op e m (fun j => bigop op e n (fun i => f i j)) := by
  induction n with
  | zero => exact (bigop_const op e hid m).symm
  | succ n ih =>
      simp only [bigop]
      rw [ih, bigop_op op e hassoc hcomm hid]

theorem updateEnv_comm (env : Nat → Int) (x y : Nat) (u v : Int)
    (h : x ≠ y) :
    updateEnv (updateEnv env x u) y v = updateEnv (updateEnv env y v) x u := by
  funext z
  simp only [updateEnv]
  by_cases hy : z = y
  · by_cases hx : z = x
    · exact absurd (hx.symm.trans hy) h
    · simp [hy, hx, Ne.symm h]
  · by_cases hx : z = x
    · simp [hy, hx, h]
    · simp [hy, hx]

theorem redvalAux_perm (op : Int → Int → Int) (e : Int)
    (hassoc : ∀ a b c, op (op a b) c = op a (op b c))
    (hcomm : ∀ a b, op a b = op b a) (hid : op e e = e)
    (source : Expr) (env0 : Nat → Int)
    {axes axes' : List IterVar} (hperm : axes.Perm axes') :
    ∀ env : Nat → Int, (axes.map fun a => a.var.id).Nodup →
      redvalAux op e source env0 axes env =
        redvalAux op e source env0 axes' env := by
  induction hperm with
  | nil =>
      intro env _
      rfl
  | cons a _ ih =>
      intro env hnd
      simp only [redvalAux]
      exact bigop_congr _ _ _ _ _ fun i =>
        ih _ (List.nodup_cons.mp (by simpa using hnd)).2
  | swap x y l =>
      intro env hnd
      have hnd' : (y.var.id :: x.var.id :: l.map fun a => a.var.id).Nodup := by
        simpa using hnd
      have hxy : y.var.id ≠ x.var.id := by
        intro hEq
        exact (List.nodup_cons.mp hnd').1 (by simp [hEq])
      simp only [redvalAux]
      refine (bigop_comm op e hassoc hcomm hid _ _ fun j i =>
        redvalAux op e source env0 l
          (updateEnv (updateEnv env y.var.id (y.dom.min.eval env0 + j))
            x.var.id (x.dom.min.eval env0 + i))).trans ?_
      exact bigop_congr _ _ _ _ _ fun i =>
        bigop_congr _ _ _ _ _ fun j => by
          rw [updateEnv_comm env y.var.id x.var.id _ _ hxy]
  | trans h1 _ ih1 ih2 =>
      intro env hnd
      exact (ih1 env hnd).trans
        (ih2 env ((h1.map fun a => a.var.id).nodup hnd))

/-- C9: `IterVarType2String` maps each of the eight enumerated roles to its
display name — `kDataPar` to "DataPar", `kThreadIndex` to "ThreadIndex",
`kOrdered` to "Ordered", `kOpaque` to "Opaque", `kUnrolled` to "Unrolled",
`kVectorized` to "Vectorized", `kParallelized` to "Parallelized" — and maps
`kCommReduce` to the literal string "CommRedude". -/
theorem C9_iter_var_type_to_string :
    IterVarType2String .kDataPar = "DataPar" ∧
    IterVarType2String .kThreadIndex = "ThreadIndex" ∧
    IterVarType2String .kOrdered = "Ordered" ∧
    IterVarType2String .kOpaque = "Opaque" ∧
    IterVarType2String .kUnrolled = "Unrolled" ∧
    IterVarType2String .kVectorized = "Vectorized" ∧
    IterVarType2String .kParallelized = "Parallelized" ∧
    IterVarType2String .kCommReduce = "CommRedude" :=
  ⟨rfl, rfl, rfl, rfl, rfl, rfl, rfl, rfl⟩

/-- C10: for every IterVar built from a bound variable, the implicit
conversion to Expr returns exactly the node's own bound Var (the `var`
field of its node, same identity), not a copy or any other expression. -/
theorem C10_iter_var_to_expr_is_own_var (dom : Range) (v : Var)
    (t : IterVarType) (tag : String) :
    (IterVarNode.make dom v t tag).toExpr =
        Expr.var ((IterVarNode.make dom v t tag).var) ∧
    (IterVarNode.make dom v t tag).var = v :=
  ⟨rfl, rfl⟩

/-- C5: for every Var `a` and string `s`, `a.copy_with_suffix(s)` returns a
Var whose `name_hint` is `a`'s `name_hint` concatenated with `s`, whose
`type` is identical to `a`'s, and which is not identity-equal to `a` (a
fresh node). The hypothesis `a.id < s` states that `a` was allocated
before the current allocation state. -/
theorem C5_copy_with_suffix (a : Var) (suffix : String) (s : Nat)
    (halloc : a.id < s) :
    (a.copy_with_suffix suffix s).1.name_hint = a.name_hint ++ suffix ∧
    (a.copy_with_suffix suffix s).1.type = a.type ∧
    (a.copy_with_suffix suffix s).1 ≠ a := by
  refine ⟨rfl, rfl, ?_⟩
  intro hEq
  have hId : (a.copy_with_suffix suffix s).1.id = a.id := congrArg Var.id hEq
  simp only [Var.copy_with_suffix, Var.fresh] at hId
  omega

theorem C5_copy_with_suffix_witness :
    ((Var.mk 0 "v" Int32).copy_with_suffix "x" 1).1.name_hint =
        (Var.mk 0 "v" Int32).name_hint ++ "x" ∧
    ((Var.mk 0 "v" Int32).copy_with_suffix "x" 1).1.type =
        (Var.mk 0 "v" Int32).type ∧
    ((Var.mk 0 "v" Int32).copy_with_suffix "x" 1).1 ≠ Var.mk 0 "v" Int32 :=
  C5_copy_with_suffix (Var.mk 0 "v" Int32) "x" 1 (by decide)

/-- C3: `Range(begin, end)` fails with `InvalidRangeError` when both bounds
are compile-time constants and `end` is statically known to be less than
`begin`; when either bound is dynamic or symbolic it accepts them without
validation. -/
theorem C3_range_begin_end_validation (b e : Expr) :
    ((∃ bv ev : Int, b.as_const_int = some bv ∧ e.as_const_int = some ev ∧
        ev < bv) →
      Range.ofBeginEnd b e = .error .InvalidRangeError) ∧
    ((b.as_const_int = none ∨ e.as_const_int = none) →
      Range.ofBeginEnd b e =
        .ok (Range.make_with_min_extent b (Expr.sub e b))) := by
  constructor
  · rintro ⟨bv, ev, hb, he, hlt⟩
    unfold Range.ofBeginEnd
    rw [hb, he]
    simp [hlt]
  · intro h
    unfold Range.ofBeginEnd
    rcases h with h | h
    · rw [h]
    · rw [h]
      cases hb : b.as_const_int <;> rfl

theorem C3_range_begin_end_validation_witness :
    Range.ofBeginEnd (Expr.IntImm 5) (Expr.IntImm 2) =
        .error .InvalidRangeError ∧
    Range.ofBeginEnd (Expr.var ⟨0, "x", Int32⟩) (Expr.IntImm 2) =
      .ok (Range.make_with_min_extent (Expr.var ⟨0, "x", Int32⟩)
        (Expr.sub (Expr.IntImm 2) (Expr.var ⟨0, "x", Int32⟩))) :=
  ⟨(C3_range_begin_end_validation (Expr.IntImm 5) (Expr.IntImm 2)).1
      ⟨5, 2, rfl, rfl, by decide⟩,
   (C3_range_begin_end_validation (Expr.var ⟨0, "x", Int32⟩)
      (Expr.IntImm 2)).2 (Or.inl rfl)⟩

/-- C2: `sum(source, axis)`, `max(source, axis)` and `min(source, axis)`
fail with `InvalidAxisRoleError` if any supplied IterVar in the axis list
has `iter_type` different from `kCommReduce`, and succeed when every
supplied axis has `iter_type == kCommReduce`. -/
theorem C2_reduction_axis_role_check (source : Expr) (axis : List IterVar) :
    ((∃ a ∈ axis, a.iter_type ≠ IterVarType.kCommReduce) →
      sum source axis = .error .InvalidAxisRoleError ∧
      max source axis = .error .InvalidAxisRoleError ∧
      min source axis = .error .InvalidAxisRoleError) ∧
    ((∀ a ∈ axis, a.iter_type = IterVarType.kCommReduce) →
      sum source axis = .ok ⟨.Add, source, axis⟩ ∧
      max source axis = .ok ⟨.Max, source, axis⟩ ∧
      min source axis = .ok ⟨.Min, source, axis⟩) := by
  constructor
  · rintro ⟨a, ha, hne⟩
    have hnot : ¬ ∀ b ∈ axis, b.iter_type = IterVarType.kCommReduce :=
      fun hall => hne (hall a ha)
    exact ⟨by simp only [tvm.sum, mkReduce]; rw [if_neg hnot],
           by simp only [tvm.max, mkReduce]; rw [if_neg hnot],
           by simp only [tvm.min, mkReduce]; rw [if_neg hnot]⟩
  · intro hall
    exact ⟨by simp only [tvm.sum, mkReduce]; rw [if_pos hall],
           by simp only [tvm.max, mkReduce]; rw [if_pos hall],
           by simp only [tvm.min, mkReduce]; rw [if_pos hall]⟩

theorem C2_reduction_axis_role_check_witness :
    (sum (Expr.IntImm 1)
        [IterVarNode.make (Range.make_with_min_extent (.IntImm 0) (.IntImm 4))
          (Var.mk 0 "i" Int32) .kDataPar] =
      .error .InvalidAxisRoleError) ∧
    (sum (Expr.IntImm 1)
        [IterVarNode.make (Range.make_with_min_extent (.IntImm 0) (.IntImm 4))
          (Var.mk 1 "k" Int32) .kCommReduce] =
      .ok ⟨.Add, Expr.IntImm 1,
        [IterVarNode.make (Range.make_with_min_extent (.IntImm 0) (.IntImm 4))
          (Var.mk 1 "k" Int32) .kCommReduce]⟩) :=
  ⟨((C2_reduction_axis_role_check (Expr.IntImm 1)
      [IterVarNode.make (Range.make_with_min_extent (.IntImm 0) (.IntImm 4))
        (Var.mk 0 "i" Int32) .kDataPar]).1 (by decide)).1,
   ((C2_reduction_axis_role_check (Expr.IntImm 1)
      [IterVarNode.make (Range.make_with_min_extent (.IntImm 0) (.IntImm 4))
        (Var.mk 1 "k" Int32) .kCommReduce]).2 (by decide)).1⟩

/-- C6: `reduce_axis(dom, name)` returns an IterVar with
`iter_type == kCommReduce` whose `dom` is the supplied range; the name
parameter defaults to "rv" when omitted; and
`reduce_axis(Range(0,10), "k")` yields `dom.min == 0` and
`dom.extent == 10`. -/
theorem C6_reduce_axis_fields (s : Nat) (dom : Range) (name : String) :
    ((reduce_axis s dom name).1.iter_type = IterVarType.kCommReduce ∧
     (reduce_axis s dom name).1.dom = dom ∧
     (reduce_axis s dom name).1.thread_tag = "" ∧
     reduce_axis s dom = reduce_axis s dom "rv") ∧
    (∀ r : Range, Range.ofBeginEnd (.IntImm 0) (.IntImm 10) = .ok r →
      (reduce_axis s r "k").1.dom.min = .IntImm 0 ∧
      (reduce_axis s r "k").1.dom.extent = .IntImm 10) := by
  refine ⟨⟨rfl, rfl, rfl, rfl⟩, ?_⟩
  intro r hr
  have hv : Range.ofBeginEnd (.IntImm 0) (.IntImm 10) =
      .ok (Range.make_with_min_extent (.IntImm 0) (.IntImm 10)) := rfl
  rw [hv] at hr
  cases hr
  exact ⟨rfl, rfl⟩

theorem C6_reduce_axis_fields_witness :
    (((reduce_axis 0 (Range.make_with_min_extent (.IntImm 0) (.IntImm 10))
        "k").1.iter_type = IterVarType.kCommReduce) ∧
      (reduce_axis 0 (Range.make_with_min_extent (.IntImm 0) (.IntImm 10))
        "k").1.dom.min = .IntImm 0 ∧
      (reduce_axis 0 (Range.make_with_min_extent (.IntImm 0) (.IntImm 10))
        "k").1.dom.extent = .IntImm 10) :=
  ⟨((C6_reduce_axis_fields 0
      (Range.make_with_min_extent (.IntImm 0) (.IntImm 10)) "k").1).1,
   (C6_reduce_axis_fields 0
      (Range.make_with_min_extent (.IntImm 0) (.IntImm 10)) "k").2
      (Range.make_with_min_extent (.IntImm 0) (.IntImm 10)) rfl⟩

/-- C7: `thread_axis(dom, tag)` returns an IterVar with
`iter_type == kThreadIndex` and `thread_tag` equal to `tag`; in
particular `thread_axis(Range(0,256), "threadIdx.x")` yields
`iter_type == ThreadIndex` and `thread_tag == "threadIdx.x"`. -/
theorem C7_thread_axis_fields (s : Nat) (dom : Range) (tag : String) :
    ((thread_axis s dom tag).1.iter_type = IterVarType.kThreadIndex ∧
     (thread_axis s dom tag).1.thread_tag = tag ∧
     (thread_axis s dom tag).1.dom = dom) ∧
    (∀ r : Range, Range.ofBeginEnd (.IntImm 0) (.IntImm 256) = .ok r →
      (thread_axis s r "threadIdx.x").1.iter_type =
          IterVarType.kThreadIndex ∧
      (thread_axis s r "threadIdx.x").1.thread_tag = "threadIdx.x") :=
  ⟨⟨rfl, rfl, rfl⟩, fun _ _ => ⟨rfl, rfl⟩⟩

theorem C7_thread_axis_fields_witness :
    ((thread_axis 0 (Range.make_with_min_extent (.IntImm 0) (.IntImm 256))
        "threadIdx.x").1.iter_type = IterVarType.kThreadIndex ∧
     (thread_axis 0 (Range.make_with_min_extent (.IntImm 0) (.IntImm 256))
        "threadIdx.x").1.thread_tag = "threadIdx.x") :=
  (C7_thread_axis_fields 0
      (Range.make_with_min_extent (.IntImm 0) (.IntImm 256))
      "threadIdx.x").2
    (Range.make_with_min_extent (.IntImm 0) (.IntImm 256)) rfl

/-- C1 counterexample: the public factory `IterVarNode::make` constructs an
IterVar whose `thread_tag` is non-empty while its `iter_type` is
`kCommReduce`, not `kThreadIndex` — the claimed invariant is not enforced
by the general factory. -/
theorem C1_thread_tag_invariant_counterexample :
    (IterVarNode.make (Range.make_with_min_extent (.IntImm 0) (.IntImm 1))
      (Var.mk 0 "x" Int32) .kCommReduce "threadIdx.x").thread_tag ≠ "" ∧
    (IterVarNode.make (Range.make_with_min_extent (.IntImm 0) (.IntImm 1))
      (Var.mk 0 "x" Int32) .kCommReduce "threadIdx.x").iter_type ≠
        IterVarType.kThreadIndex :=
  ⟨by decide, by decide⟩

/-- C1 amended: every IterVar constructed by the factories `thread_axis`
or `reduce_axis` satisfies the invariant — a non-empty `thread_tag`
implies `iter_type == kThreadIndex` (`thread_axis` always sets
`kThreadIndex` together with the tag, `reduce_axis` always leaves the tag
empty). The general factory `IterVarNode::make` does not enforce it. -/
theorem C1_thread_tag_invariant_amended (v : IterVar) (s : Nat)
    (dom : Range) (tag name : String)
    (hfac : v = (thread_axis s dom tag).1 ∨ v = (reduce_axis s dom name).1)
    (htag : v.thread_tag ≠ "") :
    v.iter_type = IterVarType.kThreadIndex := by
  rcases hfac with h | h
  · subst h
    rfl
  · subst h
    exact absurd rfl htag

theorem C1_thread_tag_invariant_amended_witness :
    ((thread_axis 0 (Range.make_with_min_extent (.IntImm 0) (.IntImm 1))
        "threadIdx.x").1).iter_type = IterVarType.kThreadIndex :=
  C1_thread_tag_invariant_amended
    ((thread_axis 0 (Range.make_with_min_extent (.IntImm 0) (.IntImm 1))
        "threadIdx.x").1)
    0 (Range.make_with_min_extent (.IntImm 0) (.IntImm 1)) "threadIdx.x"
    "rv" (Or.inl rfl) (by decide)

/-- C4 counterexample: with symbolic bounds `m = x`, `e = y`, the range
`Range(m, m + e)` stores extent `(x + y) - x`, which is not structurally
equal to `e`; so `Range::make_with_min_extent(m, e)` and `Range(m, m+e)`
are not structurally equal for all `m, e`. -/
theorem C4_structural_equality_counterexample :
    Range.ofBeginEnd (Expr.var ⟨0, "x", Int32⟩)
        (Expr.add (Expr.var ⟨0, "x", Int32⟩) (Expr.var ⟨1, "y", Int32⟩)) ≠
      Except.ok (Range.make_with_min_extent (Expr.var ⟨0, "x", Int32⟩)
        (Expr.var ⟨1, "y", Int32⟩)) := by
  intro h
  have h2 := (Except.ok.injEq _ _).mp h
  have h3 := congrArg Range.extent h2
  simp [Range.make_with_min_extent, Expr.add, Expr.sub] at h3

/-- C4 amended: `Range::make_with_min_extent(m, e)` and `Range(m, m+e)`
are structurally equal whenever `m` and `e` are both compile-time integer
constants (with `e` non-negative so that construction succeeds); with
symbolic bounds the stored extent is the unsimplified `(m + e) - m`,
value-equal but not structurally equal to `e`. For statically comparable
constant bounds with `begin <= end`, `Range(begin, end).extent` equals
`end - begin`. -/
theorem C4_range_constant_agreement (m e : Int) (he : 0 ≤ e) :
    (Range.ofBeginEnd (.IntImm m) (Expr.add (.IntImm m) (.IntImm e)) =
      .ok (Range.make_with_min_extent (.IntImm m) (.IntImm e))) ∧
    (∀ b e2 : Int, b ≤ e2 →
      Range.ofBeginEnd (.IntImm b) (.IntImm e2) =
        .ok (Range.make_with_min_extent (.IntImm b) (.IntImm (e2 - b)))) := by
  constructor
  · have h1 : ¬ (m + e < m) := by omega
    have h2 : m + e - m = e := by omega
    simp only [Expr.add, Range.ofBeginEnd, Expr.as_const_int, Expr.sub]
    rw [if_neg h1, h2]
  · intro b e2 hle
    have h1 : ¬ (e2 < b) := by omega
    simp only [Range.ofBeginEnd, Expr.as_const_int, Expr.sub]
    rw [if_neg h1]

theorem C4_range_constant_agreement_witness :
    (Range.ofBeginEnd (.IntImm 3) (Expr.add (.IntImm 3) (.IntImm 7)) =
      .ok (Range.make_with_min_extent (.IntImm 3) (.IntImm 7))) ∧
    (Range.ofBeginEnd (.IntImm 2) (.IntImm 5) =
      .ok (Range.make_with_min_extent (.IntImm 2) (.IntImm (5 - 2)))) :=
  ⟨(C4_range_constant_agreement 3 7 (by decide)).1,
   (C4_range_constant_agreement 3 7 (by decide)).2 2 5 (by decide)⟩

/-- C8: for every source expression and every list of all-`kCommReduce`
axes, permuting the axis list passed to `sum` (and likewise `max` and
`min`) produces a value-equivalent reduction expression: both
constructions succeed and denote the same mathematical value under every
environment. The axes carry pairwise-distinct bound variables (the spec's
exclusive-ownership invariant: each IterVar exclusively owns its Var, and
the axis collection is a set). -/
theorem C8_reduction_axis_order_irrelevant (source : Expr)
    (axes axes' : List IterVar) (env : Nat → Int)
    (hperm : axes.Perm axes')
    (hnd : (axes.map fun a => a.var.id).Nodup)
    (hall : ∀ a ∈ axes, a.iter_type = IterVarType.kCommReduce) :
    (sum source axes = .ok ⟨.Add, source, axes⟩ ∧
     sum source axes' = .ok ⟨.Add, source, axes'⟩ ∧
     reduceValue env ⟨.Add, source, axes⟩ =
       reduceValue env ⟨.Add, source, axes'⟩) ∧
    (max source axes = .ok ⟨.Max, source, axes⟩ ∧
     max source axes' = .ok ⟨.Max, source, axes'⟩ ∧
     reduceValue env ⟨.Max, source, axes⟩ =
       reduceValue env ⟨.Max, source, axes'⟩) ∧
    (min source axes = .ok ⟨.Min, source, axes⟩ ∧
     min source axes' = .ok ⟨.Min, source, axes'⟩ ∧
     reduceValue env ⟨.Min, source, axes⟩ =
       reduceValue env ⟨.Min, source, axes'⟩) := by
  have hall' : ∀ a ∈ axes', a.iter_type = IterVarType.kCommReduce :=
    fun a ha => hall a (hperm.mem_iff.mpr ha)
  refine ⟨⟨?_, ?_, ?_⟩, ⟨?_, ?_, ?_⟩, ⟨?_, ?_, ?_⟩⟩
  · simp only [tvm.sum, mkReduce]
    rw [if_pos hall]
  · simp only [tvm.sum, mkReduce]
    rw [if_pos hall']
  · simp only [reduceValue]
    exact redvalAux_perm _ _ (fun a b c => Int.add_assoc a b c)
      (fun a b => Int.add_comm a b) rfl source env hperm env hnd
  · simp only [tvm.max, mkReduce]
    rw [if_pos hall]
  · simp only [tvm.max, mkReduce]
    rw [if_pos hall']
  · simp only [reduceValue]
    exact redvalAux_perm _ _ (fun a b c => max_assoc a b c)
      (fun a b => max_comm a b) (max_self _) source env hperm env hnd
  · simp only [tvm.min, mkReduce]
    rw [if_pos hall]
  · simp only [tvm.min, mkReduce]
    rw [if_pos hall']
  · simp only [reduceValue]
    exact redvalAux_perm _ _ (fun a b c => min_assoc a b c)
      (fun a b => min_comm a b) (min_self _) source env hperm env hnd

theorem C8_reduction_axis_order_irrelevant_witness :
    (sum (Expr.IntImm 1)
        [IterVarNode.make (Range.make_with_min_extent (.IntImm 0) (.IntImm 2))
           (Var.mk 0 "i" Int32) .kCommReduce,
         IterVarNode.make (Range.make_with_min_extent (.IntImm 0) (.IntImm 3))
           (Var.mk 1 "j" Int32) .kCommReduce] =
       .ok ⟨.Add, Expr.IntImm 1,
        [IterVarNode.make (Range.make_with_min_extent (.IntImm 0) (.IntImm 2))
           (Var.mk 0 "i" Int32) .kCommReduce,
         IterVarNode.make (Range.make_with_min_extent (.IntImm 0) (.IntImm 3))
           (Var.mk 1 "j" Int32) .kCommReduce]⟩ ∧
     sum (Expr.IntImm 1)
        [IterVarNode.make (Range.make_with_min_extent (.IntImm 0) (.IntImm 3))
           (Var.mk 1 "j" Int32) .kCommReduce,
         IterVarNode.make (Range.make_with_min_extent (.IntImm 0) (.IntImm 2))
           (Var.mk 0 "i" Int32) .kCommReduce] =
       .ok ⟨.Add, Expr.IntImm 1,
        [IterVarNode.make (Range.make_with_min_extent (.IntImm 0) (.IntImm 3))
           (Var.mk 1 "j" Int32) .kCommReduce,
         IterVarNode.make (Range.make_with_min_extent (.IntImm 0) (.IntImm 2))
           (Var.mk 0 "i" Int32) .kCommReduce]⟩ ∧
     reduceValue (fun _ => 0)
        ⟨.Add, Expr.IntImm 1,
         [IterVarNode.make (Range.make_with_min_extent (.IntImm 0) (.IntImm 2))
            (Var.mk 0 "i" Int32) .kCommReduce,
          IterVarNode.make (Range.make_with_min_extent (.IntImm 0) (.IntImm 3))
            (Var.mk 1 "j" Int32) .kCommReduce]⟩ =
       reduceValue (fun _ => 0)
        ⟨.Add, Expr.IntImm 1,
         [IterVarNode.make (Range.make_with_min_extent (.IntImm 0) (.IntImm 3))
            (Var.mk 1 "j" Int32) .kCommReduce,
          IterVarNode.make (Range.make_with_min_extent (.IntImm 0) (.IntImm 2))
            (Var.mk 0 "i" Int32) .kCommReduce]⟩) ∧
    (max (Expr.IntImm 1)
        [IterVarNode.make (Range.make_with_min_extent (.IntImm 0) (.IntImm 2))
           (Var.mk 0 "i" Int32) .kCommReduce,
         IterVarNode.make (Range.make_with_min_extent (.IntImm 0) (.IntImm 3))
           (Var.mk 1 "j" Int32) .kCommReduce] =
       .ok ⟨.Max, Expr.IntImm 1,
        [IterVarNode.make (Range.make_with_min_extent (.IntImm 0) (.IntImm 2))
           (Var.mk 0 "i" Int32) .kCommReduce,
         IterVarNode.make (Range.make_with_min_extent (.IntImm 0) (.IntImm 3))
           (Var.mk 1 "j" Int32) .kCommReduce]⟩ ∧
     max (Expr.IntImm 1)
        [IterVarNode.make (Range.make_with_min_extent (.IntImm 0) (.IntImm 3))
           (Var.mk 1 "j" Int32) .kCommReduce,
         IterVarNode.make (Range.make_with_min_extent (.IntImm 0) (.IntImm 2))
           (Var.mk 0 "i" Int32) .kCommReduce] =
       .ok ⟨.Max, Expr.IntImm 1,
        [IterVarNode.make (Range.make_with_min_extent (.IntImm 0) (.IntImm 3))
           (Var.mk 1 "j" Int32) .kCommReduce,
         IterVarNode.make (Range.make_with_min_extent (.IntImm 0) (.IntImm 2))
           (Var.mk 0 "i" Int32) .kCommReduce]⟩ ∧
     reduceValue (fun _ => 0)
        ⟨.Max, Expr.IntImm 1,
         [IterVarNode.make (Range.make_with_min_extent (.IntImm 0) (.IntImm 2))
            (Var.mk 0 "i" Int32) .kCommReduce,
          IterVarNode.make (Range.make_with_min_extent (.IntImm 0) (.IntImm 3))
            (Var.mk 1 "j" Int32) .kCommReduce]⟩ =
       reduceValue (fun _ => 0)
        ⟨.Max, Expr.IntImm 1,
         [IterVarNode.make (Range.make_with_min_extent (.IntImm 0) (.IntImm 3))
            (Var.mk 1 "j" Int32) .kCommReduce,
          IterVarNode.make (Range.make_with_min_extent (.IntImm 0) (.IntImm 2))
            (Var.mk 0 "i" Int32) .kCommReduce]⟩) ∧
    (min (Expr.IntImm 1)
        [IterVarNode.make (Range.make_with_min_extent (.IntImm 0) (.IntImm 2))
           (Var.mk 0 "i" Int32) .kCommReduce,
         IterVarNode.make (Range.make_with_min_extent (.IntImm 0) (.IntImm 3))
           (Var.mk 1 "j" Int32) .kCommReduce] =
       .ok ⟨.Min, Expr.IntImm 1,
        [IterVarNode.make (Range.make_with_min_extent (.IntImm 0) (.IntImm 2))
           (Var.mk 0 "i" Int32) .kCommReduce,
         IterVarNode.make (Range.make_with_min_extent (.IntImm 0) (.IntImm 3))
           (Var.mk 1 "j" Int32) .kCommReduce]⟩ ∧
     min (Expr.IntImm 1)
        [IterVarNode.make (Range.make_with_min_extent (.IntImm 0) (.IntImm 3))
           (Var.mk 1 "j" Int32) .kCommReduce,
         IterVarNode.make (Range.make_with_min_extent (.IntImm 0) (.IntImm 2))
           (Var.mk 0 "i" Int32) .kCommReduce] =
       .ok ⟨.Min, Expr.IntImm 1,
        [IterVarNode.make (Range.make_with_min_extent (.IntImm 0) (.IntImm 3))
           (Var.mk 1 "j" Int32) .kCommReduce,
         IterVarNode.make (Range.make_with_min_extent (.IntImm 0) (.IntImm 2))
           (Var.mk 0 "i" Int32) .kCommReduce]⟩ ∧
     reduceValue (fun _ => 0)
        ⟨.Min, Expr.IntImm 1,
         [IterVarNode.make (Range.make_with_min_extent (.IntImm 0) (.IntImm 2))
            (Var.mk 0 "i" Int32) .kCommReduce,
          IterVarNode.make (Range.make_with_min_extent (.IntImm 0) (.IntImm 3))
            (Var.mk 1 "j" Int32) .kCommReduce]⟩ =
       reduceValue (fun _ => 0)
        ⟨.Min, Expr.IntImm 1,
         [IterVarNode.make (Range.make_with_min_extent (.IntImm 0) (.IntImm 3))
            (Var.mk 1 "j" Int32) .kCommReduce,
          IterVarNode.make (Range.make_with_min_extent (.IntImm 0) (.IntImm 2))
            (Var.mk 0 "i" Int32) .kCommReduce]⟩) :=
  C8_reduction_axis_order_irrelevant (Expr.IntImm 1)
    [IterVarNode.make (Range.make_with_min_extent (.IntImm 0) (.IntImm 2))
       (Var.mk 0 "i" Int32) .kCommReduce,
     IterVarNode.make (Range.make_with_min_extent (.IntImm 0) (.IntImm 3))
       (Var.mk 1 "j" Int32) .kCommReduce]
    [IterVarNode.make (Range.make_with_min_extent (.IntImm 0) (.IntImm 3))
       (Var.mk 1 "j" Int32) .kCommReduce,
     IterVarNode.make (Range.make_with_min_extent (.IntImm 0) (.IntImm 2))
       (Var.mk 0 "i" Int32) .kCommReduce]
    (fun _ => 0)
    (List.Perm.swap
      (IterVarNode.make (Range.make_with_min_extent (.IntImm 0) (.IntImm 3))
        (Var.mk 1 "j" Int32) .kCommReduce)
      (IterVarNode.make (Range.make_with_min_extent (.IntImm 0) (.IntImm 2))
        (Var.mk 0 "i" Int32) .kCommReduce)
      [])
    (by decide) (by decide)

end tvm
